import Mathlib

/-!
Verification of the testrpc core orchestration loop.

This file gives a shallow embedding of `src/runner.rs` (`load_endpoints`,
`run`, `process_round`) and of `src/signal.rs` (`wait_exit_signals`), and
settles the spec's claims about them as theorems.

Modelling conventions for the asynchronous parts:

* The `ctx`/cancellation machinery (`ctx::Context`, `ctx.recv()`) is not part
  of the two source files; it is modelled from the spec, section 4.1: the
  cancellation signal is a one-shot broadcast flag, and a wait on it completes
  immediately (at every wait point) once cancellation has been requested.
  Logical time is measured in race points: every `tokio::select!` the loop
  executes is one race point, numbered globally from 0.  A `Sched` fixes one
  asynchronous schedule: from which race point (if any) cancellation is
  observable, which of those races the cancellation branch actually wins
  (tokio's select picks randomly among ready branches, so a ready cancellation
  branch may still lose), and whether a task abandoned at a given iteration
  finishes before the final drain of the result vector.

* `tokio::select! { _ = task::spawn(...) => .. , _ = quit.recv() => .. }`
  evaluates its branch expressions before polling, so the round task is
  spawned — `process_round` is invoked — no matter which branch wins the race.
  The model therefore records a `dispatch` event before resolving the race.

* The hotshot adapter lives in the `hotshot` module, an external collaborator
  (spec section 4.2 treats it as a pluggable black box); its two operations
  are oracle parameters (`HotshotModel`).

* A task abandoned by a lost race keeps running and still holds a clone of the
  `Arc<RwLock<Vec<_>>>`.  If it finishes before the final drain, its `Ok`
  result is pushed into the shared vector (the push in the spawned task is
  unconditional); the model appends those late results at drain time, in
  abandonment order, which is one realizable interleaving.  If some abandoned
  task has not finished by the time `Arc::try_unwrap(results).unwrap()` runs,
  `try_unwrap` fails and the `unwrap` panics; the model returns `panicked`.
-/

namespace Testrpc

/-- Round definitions are opaque, adapter-interpreted data (spec section 3). -/
structure Round where
  id : Nat
deriving DecidableEq, Repr

/-- Named reusable round fragment; opaque to the core. -/
structure RoundTemplate where
  id : Nat
deriving DecidableEq, Repr

/-- Opaque payload produced by a successful round (`common::RoundResults`). -/
structure RoundResults where
  tag : Nat
deriving DecidableEq, Repr

/-- Adapter selector (`config::Adapter`).  `runner.rs` only distinguishes the
`Hotshot` variant from every other variant (its `_` match arm), so the model
keeps one registered variant and a family of unregistered ones. -/
inductive Adapter
  | hotshot
  | unregistered (name : String)
deriving DecidableEq, Repr

/-- Display string of an adapter selector, used in the error payload
(`cfg.adapter.to_string()` in the source). -/
def Adapter.display : Adapter → String
  | Adapter.hotshot => "hotshot"
  | Adapter.unregistered n => n

/-- Modelled from the spec: `common::TestflowError` is not under `src/`; the
spec's error taxonomy (section 7) has `UnsupportedAdapter` plus per-round
adapter-specific errors. -/
inductive TestflowError
  | unsupportedAdapter (name : String)
  | roundError (msg : String)
deriving DecidableEq, Repr

/-- Modelled from the spec: `config::Config` is not under `src/`; fields are
the ones `runner.rs` reads, with types from spec section 3 (`RunConfig`). -/
structure Config where
  rounds : List Round
  round_templates : List (String × RoundTemplate)
  interval : Nat
  iterations : Option Nat
  adapter : Adapter
  args : List String
deriving Repr

/-- Oracle for the `hotshot` module, an external collaborator: its
`load_endpoints` and `process_round` are I/O-performing black boxes behind the
adapter interface (spec section 4.2). -/
structure HotshotModel where
  loadEndpoints : List String → Except TestflowError (List String)
  processRound : Round → Nat → List String → List (String × RoundTemplate) →
    Except TestflowError RoundResults

/-- Embedding of `runner.rs::load_endpoints` (lines 10-15): dispatch on the
configured adapter; any selector other than `Hotshot` is the `_` arm and
yields `UnsupportedAdapter`. -/
def load_endpoints (hs : HotshotModel) (cfg : Config) :
    Except TestflowError (List String) :=
  match cfg.adapter with
  | Adapter.hotshot => hs.loadEndpoints cfg.args
  | a => Except.error (TestflowError.unsupportedAdapter a.display)

/-- Embedding of `runner.rs::process_round` (lines 82-95): dispatch on the
adapter argument; unregistered adapters yield `UnsupportedAdapter`. -/
def process_round (hs : HotshotModel) (adapter : Adapter) (round : Round)
    (iteration : Nat) (rpc_urls : List String)
    (round_templates : List (String × RoundTemplate)) :
    Except TestflowError RoundResults :=
  match adapter with
  | Adapter.hotshot => hs.processRound round iteration rpc_urls round_templates
  | a => Except.error (TestflowError.unsupportedAdapter a.display)

/-- One asynchronous schedule for a run: resolves every nondeterministic
choice the tokio runtime makes.  `cancelFrom = some k` means the cancellation
signal is requested before race point `k` (and, being one-shot broadcast,
stays observable at every later race point, spec section 4.1); `cancelWins j`
says whether the cancellation branch wins race point `j`; `lands i` says
whether the task abandoned at the dispatch of iteration `i` finishes before
the final drain. -/
structure Sched where
  cancelFrom : Option Nat
  cancelWins : Nat → Bool
  lands : Nat → Bool

/-- Whether the cancellation signal is observable at race point `j`. -/
def Sched.cancelReady (s : Sched) (j : Nat) : Bool :=
  match s.cancelFrom with
  | some k => decide (k ≤ j)
  | none => false

/-- A schedule is realizable when the cancellation branch only wins races at
which the signal is already observable. -/
def Sched.realizable (s : Sched) : Prop :=
  ∀ j, s.cancelWins j = true → s.cancelReady j = true

/-- Observable events of one execution of `run`. -/
inductive Event
  | dispatch (iteration roundNum : Nat)
  | roundOk (iteration : Nat)
  | roundErr (iteration : Nat)
  | abandoned (iteration : Nat)
  | pauseDone (iteration : Nat)
  | pauseCancelled (iteration : Nat)
deriving DecidableEq, Repr

/-- State of the scheduler loop in `run`: the iteration counter `i`, the race
point counter `j`, the shared results vector, the abandoned still-running
tasks (iteration and the outcome the task will produce), and the event
trace. -/
structure LoopSt where
  i : Nat
  j : Nat
  results : List RoundResults
  pending : List (Nat × Except TestflowError RoundResults)
  trace : List Event
deriving Repr

/-- The iteration ceiling check of `run`: `i >= iterations` when a ceiling is
configured (lines 66-70 inside the round loop, lines 71-75 at the pass
boundary). -/
def ceilBrk (cfg : Config) (iteration : Nat) : Bool :=
  match cfg.iterations with
  | some n => decide (n ≤ iteration)
  | none => false

/-- One round of the inner `for` loop of `run` (lines 31-70): increment `i`
and `r`, spawn the `process_round` task, race its join handle against
`quit.recv()`, then race the interval sleep against `quit.recv()`, then check
the iteration ceiling.  Returns the new state and whether the `for` loop is
broken out of. -/
def stepRound (hs : HotshotModel) (cfg : Config) (s : Sched)
    (rpc_urls : List String) (round : Round) (roundNum : Nat) (st : LoopSt) :
    LoopSt × Bool :=
  let iteration := st.i + 1
  let outcome := process_round hs cfg.adapter round iteration rpc_urls
    cfg.round_templates
  let st1 : LoopSt :=
    { st with i := iteration,
              trace := st.trace ++ [Event.dispatch iteration roundNum] }
  if s.cancelReady st1.j && s.cancelWins st1.j then
    ({ st1 with j := st1.j + 1,
                pending := st1.pending ++ [(iteration, outcome)],
                trace := st1.trace ++ [Event.abandoned iteration] }, true)
  else
    let st2 : LoopSt := { st1 with j := st1.j + 1 }
    let st3 : LoopSt :=
      match outcome with
      | Except.ok result =>
          { st2 with results := st2.results ++ [result],
                     trace := st2.trace ++ [Event.roundOk iteration] }
      | Except.error _ =>
          { st2 with trace := st2.trace ++ [Event.roundErr iteration] }
    if s.cancelReady st3.j && s.cancelWins st3.j then
      ({ st3 with j := st3.j + 1,
                  trace := st3.trace ++ [Event.pauseCancelled iteration] },
        true)
    else
      let st4 : LoopSt :=
        { st3 with j := st3.j + 1,
                   trace := st3.trace ++ [Event.pauseDone iteration] }
      (st4, ceilBrk cfg iteration)

/-- The inner `for round in rounds` loop of `run`. -/
def runRounds (hs : HotshotModel) (cfg : Config) (s : Sched)
    (rpc_urls : List String) : List Round → Nat → LoopSt → LoopSt
  | [], _, st => st
  | round :: rest, r, st =>
      let p := stepRound hs cfg s rpc_urls round (r + 1) st
      if p.2 then p.1 else runRounds hs cfg s rpc_urls rest (r + 1) p.1

/-- The pass-boundary ceiling check of `run` (lines 71-75): leave the outer
`loop` exactly when a ceiling is configured and `i` has reached it. -/
def passExit (cfg : Config) (st : LoopSt) : Bool :=
  ceilBrk cfg st.i

/-- The outer `loop` of `run`, fuel-bounded: `fuel` is the number of passes
the model is willing to execute; returning `false` means the loop was still
running when the fuel ran out. -/
def runLoop (hs : HotshotModel) (cfg : Config) (s : Sched)
    (rpc_urls : List String) : Nat → LoopSt → LoopSt × Bool
  | 0, st => (st, false)
  | fuel + 1, st =>
      let st1 := runRounds hs cfg s rpc_urls cfg.rounds 0 st
      if passExit cfg st1 then (st1, true)
      else runLoop hs cfg s rpc_urls fuel st1

/-- Possible outcome of the final drain of `run`. -/
inductive RunOutcome
  | ok (results : List RoundResults)
  | panicked
deriving DecidableEq, Repr

/-- Late pushes of abandoned tasks that finished before the drain: an `Ok`
outcome was pushed into the shared vector, an error was only logged. -/
def lateResults : List (Nat × Except TestflowError RoundResults) →
    List RoundResults
  | [] => []
  | (_, Except.ok r) :: rest => r :: lateResults rest
  | (_, Except.error _) :: rest => lateResults rest

/-- The final drain `Arc::try_unwrap(results).unwrap().into_inner().unwrap()`
(line 77): if every abandoned task has finished, the `Arc` is unique and the
vector — including the late pushes — is returned; otherwise `try_unwrap`
fails and the `unwrap` panics. -/
def drain (s : Sched) (st : LoopSt) : RunOutcome :=
  if st.pending.all (fun p => s.lands p.1) then
    RunOutcome.ok (st.results ++ lateResults st.pending)
  else RunOutcome.panicked

/-- Initial loop state of `run`. -/
def initSt : LoopSt :=
  { i := 0, j := 0, results := [], pending := [], trace := [] }

/-- Embedding of `runner.rs::run` (lines 20-79) under schedule `s` with
`fuel` outer passes: returns the final loop state (with its event trace) and
`some` outcome when the loop terminated within the fuel, `none` when it was
still running. -/
def run (hs : HotshotModel) (s : Sched) (fuel : Nat) (cfg : Config)
    (rpc_urls : List String) : LoopSt × Option RunOutcome :=
  let p := runLoop hs cfg s rpc_urls fuel initSt
  (p.1, if p.2 then some (drain s p.1) else none)

/-- The run never terminates: no amount of fuel makes the outer loop exit. -/
def NeverTerminates (hs : HotshotModel) (s : Sched) (cfg : Config)
    (rpc_urls : List String) : Prop :=
  ∀ fuel, (run hs s fuel cfg rpc_urls).2 = none

/-! Concrete fixtures used by the scenario theorems. -/

/-- A hotshot adapter whose every round succeeds, tagging the result with the
iteration number. -/
def hsOk : HotshotModel :=
  { loadEndpoints := fun _ => Except.ok []
    processRound := fun _ iteration _ _ => Except.ok { tag := iteration } }

/-- A hotshot adapter whose first iteration fails and all others succeed. -/
def hsFail1 : HotshotModel :=
  { loadEndpoints := fun _ => Except.ok []
    processRound := fun _ iteration _ _ =>
      if iteration = 1 then Except.error (TestflowError.roundError "refused")
      else Except.ok { tag := iteration } }

/-- Schedule with no cancellation at all; abandoned tasks (there are none)
would finish before the drain. -/
def schedNoCancel : Sched :=
  { cancelFrom := none, cancelWins := fun _ => false, lands := fun _ => true }

/-- Schedule where cancellation is requested before the run starts and wins
every race; every abandoned task finishes before the final drain. -/
def schedCancelStart : Sched :=
  { cancelFrom := some 0, cancelWins := fun _ => true, lands := fun _ => true }

/-- Schedule where cancellation is requested before the run starts and wins
every race; abandoned tasks are still running at the final drain. -/
def schedCancelStartStuck : Sched :=
  { cancelFrom := some 0, cancelWins := fun _ => true, lands := fun _ => false }

/-- Round fixtures. -/
def roundA : Round := { id := 0 }

/-- Second round fixture. -/
def roundB : Round := { id := 1 }

/-- Base configuration: one round, hotshot adapter, no iteration ceiling. -/
def baseCfg : Config :=
  { rounds := [roundA], round_templates := [], interval := 0,
    iterations := none, adapter := Adapter.hotshot, args := [] }

/-- One round, iteration ceiling 1. -/
def cfgOneIter : Config := { baseCfg with iterations := some 1 }

/-- One round, iteration ceiling 0. -/
def cfgZeroIter : Config := { baseCfg with iterations := some 0 }

/-- Empty round sequence, iteration ceiling 1. -/
def cfgEmptyOne : Config :=
  { baseCfg with rounds := [], iterations := some 1 }

/-- Empty round sequence, iteration ceiling 0. -/
def cfgEmptyZero : Config :=
  { baseCfg with rounds := [], iterations := some 0 }

/-- Two rounds, ceiling 4, zero interval: spec section 8's concrete
scenario. -/
def cfgAB4 : Config :=
  { baseCfg with rounds := [roundA, roundB], iterations := some 4 }

/-- Two rounds, ceiling 2. -/
def cfgAB2 : Config :=
  { baseCfg with rounds := [roundA, roundB], iterations := some 2 }

/-- Two rounds, ceiling 2, unregistered adapter selector. -/
def cfgUnreg : Config :=
  { cfgAB2 with adapter := Adapter.unregistered "nonexistent" }

/-! Trace projections used to state the claims. -/

/-- Iteration number an event refers to. -/
def Event.iter : Event → Nat
  | Event.dispatch i _ => i
  | Event.roundOk i => i
  | Event.roundErr i => i
  | Event.abandoned i => i
  | Event.pauseDone i => i
  | Event.pauseCancelled i => i

/-- Control events: everything except the two round completion events, whose
flavor is the only thing that depends on the adapter outcome. -/
def Event.isCtl : Event → Bool
  | Event.roundOk _ => false
  | Event.roundErr _ => false
  | _ => true

/-- The control part of a trace. -/
def ctlTrace (t : List Event) : List Event := t.filter Event.isCtl

/-- Whether an event is a successful in-race round completion. -/
def Event.isOk : Event → Bool
  | Event.roundOk _ => true
  | _ => false

/-- Number of successful in-race round completions recorded in a trace. -/
def countOk (t : List Event) : Nat := (t.filter Event.isOk).length

/-- Adapter-independent projection of a loop state: both counters, the
iterations of the abandoned tasks, and the control part of the trace. -/
def LoopSt.ctl (st : LoopSt) : Nat × Nat × List Nat × List Event :=
  (st.i, st.j, st.pending.map Prod.fst, ctlTrace st.trace)

/-! Embedding of `src/signal.rs`. -/

/-- Signal kinds whose handlers `wait_exit_signals` installs. -/
inductive SigKind
  | terminate
  | interrupt
  | quit
deriving DecidableEq, Repr

/-- Modelled from the spec: `common::TestrpcError` is not under `src/`;
`signal.rs` only builds its `TerminationError` variant (the spec's signal
setup failure, fatal to the cancellation bridge only, section 7). -/
inductive TestrpcError
  | terminationError (msg : String)
deriving DecidableEq, Repr

/-- Embedding of `signal.rs::wait_exit_signals` (lines 6-27).  `setup k` is
the outcome of installing the handler for signal kind `k` (`some e` carries
the error message tokio reports, `none` is success) — an oracle for the
external `tokio::signal` calls; `first` is the first of the three signals
delivered to the process.  The handlers are installed in source order
`terminate`, `interrupt`, `quit`, returning the first failure; once all three
are installed the select suspends and returns `Ok(())` after the first
delivered signal, whichever it is. -/
def wait_exit_signals (setup : SigKind → Option String) (first : SigKind) :
    Except TestrpcError Unit :=
  match setup SigKind.terminate with
  | some e => Except.error (TestrpcError.terminationError e)
  | none =>
    match setup SigKind.interrupt with
    | some e => Except.error (TestrpcError.terminationError e)
    | none =>
      match setup SigKind.quit with
      | some e => Except.error (TestrpcError.terminationError e)
      | none => Except.ok ()

/-! Helper lemmas about the loop. -/

/-- With no configured ceiling the pass-boundary check never fires, so the
outer loop never exits, whatever the fuel. -/
theorem runLoop_none_running (hs : HotshotModel) (cfg : Config) (s : Sched)
    (rpc_urls : List String) (h : cfg.iterations = none) :
    ∀ fuel st, (runLoop hs cfg s rpc_urls fuel st).2 = false := by
  intro fuel
  induction fuel with
  | zero => intro st; rfl
  | succ m ih =>
      intro st
      have hp : passExit cfg (runRounds hs cfg s rpc_urls cfg.rounds 0 st)
          = false := by
        simp [passExit, ceilBrk, h]
      simp only [runLoop, hp, Bool.false_eq_true, if_false]
      exact ih _

/-- With no configured ceiling, `run` never terminates. -/
theorem run_none_diverges (hs : HotshotModel) (cfg : Config) (s : Sched)
    (rpc_urls : List String) (h : cfg.iterations = none) :
    NeverTerminates hs s cfg rpc_urls := by
  intro fuel
  have h2 := runLoop_none_running hs cfg s rpc_urls h fuel initSt
  simp only [run, h2, Bool.false_eq_true, if_false]

/-- With an empty round sequence the loop state never changes, so if the
pass-boundary check does not fire at the current state it never will. -/
theorem runLoop_empty_rounds (hs : HotshotModel) (cfg : Config) (s : Sched)
    (rpc_urls : List String) (h : cfg.rounds = []) (st : LoopSt)
    (hp : passExit cfg st = false) :
    ∀ fuel, runLoop hs cfg s rpc_urls fuel st = (st, false) := by
  intro fuel
  induction fuel with
  | zero => rfl
  | succ m ih =>
      have h1 : runRounds hs cfg s rpc_urls cfg.rounds 0 st = st := by
        rw [h]; rfl
      simp only [runLoop, h1, hp, Bool.false_eq_true, if_false]
      exact ih

/-- Exhaustive description of the one-round step: either the task is
abandoned (cancellation wins the dispatch race), or it completes in-race
(successfully or not) and the pause race is either lost to cancellation or
completes, followed by the in-loop ceiling check. -/
theorem stepRound_shape (hs : HotshotModel) (cfg : Config) (s : Sched)
    (rpc_urls : List String) (round : Round) (rn : Nat) (st : LoopSt) :
    stepRound hs cfg s rpc_urls round rn st =
      ({ st with
          i := st.i + 1,
          j := st.j + 1,
          pending := st.pending ++ [(st.i + 1,
            process_round hs cfg.adapter round (st.i + 1) rpc_urls
              cfg.round_templates)],
          trace := st.trace ++
            [Event.dispatch (st.i + 1) rn, Event.abandoned (st.i + 1)] },
        true) ∨
    (∃ res, process_round hs cfg.adapter round (st.i + 1) rpc_urls
        cfg.round_templates = Except.ok res ∧
      (stepRound hs cfg s rpc_urls round rn st =
        ({ st with
            i := st.i + 1,
            j := st.j + 2,
            results := st.results ++ [res],
            trace := st.trace ++
              [Event.dispatch (st.i + 1) rn, Event.roundOk (st.i + 1),
               Event.pauseCancelled (st.i + 1)] }, true) ∨
       stepRound hs cfg s rpc_urls round rn st =
        ({ st with
            i := st.i + 1,
            j := st.j + 2,
            results := st.results ++ [res],
            trace := st.trace ++
              [Event.dispatch (st.i + 1) rn, Event.roundOk (st.i + 1),
               Event.pauseDone (st.i + 1)] }, ceilBrk cfg (st.i + 1)))) ∨
    (∃ msg, process_round hs cfg.adapter round (st.i + 1) rpc_urls
        cfg.round_templates = Except.error msg ∧
      (stepRound hs cfg s rpc_urls round rn st =
        ({ st with
            i := st.i + 1,
            j := st.j + 2,
            trace := st.trace ++
              [Event.dispatch (st.i + 1) rn, Event.roundErr (st.i + 1),
               Event.pauseCancelled (st.i + 1)] }, true) ∨
       stepRound hs cfg s rpc_urls round rn st =
        ({ st with
            i := st.i + 1,
            j := st.j + 2,
            trace := st.trace ++
              [Event.dispatch (st.i + 1) rn, Event.roundErr (st.i + 1),
               Event.pauseDone (st.i + 1)] }, ceilBrk cfg (st.i + 1)))) := by
  by_cases h1 : (s.cancelReady st.j && s.cancelWins st.j) = true
  · left
    simp [stepRound, h1]
  · rcases hout : process_round hs cfg.adapter round (st.i + 1) rpc_urls
        cfg.round_templates with msg | res
    · right; right
      refine ⟨msg, rfl, ?_⟩
      by_cases h2 : (s.cancelReady (st.j + 1) && s.cancelWins (st.j + 1)) = true
      · left; simp [stepRound, h1, h2, hout]
      · right; simp [stepRound, h1, h2, hout]
    · right; left
      refine ⟨res, rfl, ?_⟩
      by_cases h2 : (s.cancelReady (st.j + 1) && s.cancelWins (st.j + 1)) = true
      · left; simp [stepRound, h1, h2, hout]
      · right; simp [stepRound, h1, h2, hout]

/-- The iteration counter advances by exactly one per dispatched round. -/
theorem stepRound_i (hs : HotshotModel) (cfg : Config) (s : Sched)
    (rpc_urls : List String) (round : Round) (rn : Nat) (st : LoopSt) :
    (stepRound hs cfg s rpc_urls round rn st).1.i = st.i + 1 := by
  rcases stepRound_shape hs cfg s rpc_urls round rn st with h | ⟨r, _, h | h⟩ | ⟨m, _, h | h⟩ <;>
    rw [h]

/-- The round loop only continues past a round when the in-loop ceiling check
did not fire. -/
theorem stepRound_brk_false (hs : HotshotModel) (cfg : Config) (s : Sched)
    (rpc_urls : List String) (round : Round) (rn : Nat) (st : LoopSt)
    (h : (stepRound hs cfg s rpc_urls round rn st).2 = false) :
    ceilBrk cfg (st.i + 1) = false := by
  rcases stepRound_shape hs cfg s rpc_urls round rn st with hs1 | ⟨r, _, hs1 | hs1⟩ | ⟨m, _, hs1 | hs1⟩ <;>
    rw [hs1] at h <;> simp_all

/-- Each dispatched round adds at most one entry across the shared results
vector and the abandoned-task list. -/
theorem stepRound_sum (hs : HotshotModel) (cfg : Config) (s : Sched)
    (rpc_urls : List String) (round : Round) (rn : Nat) (st : LoopSt) :
    (stepRound hs cfg s rpc_urls round rn st).1.results.length +
      (stepRound hs cfg s rpc_urls round rn st).1.pending.length ≤
    st.results.length + st.pending.length + 1 := by
  rcases stepRound_shape hs cfg s rpc_urls round rn st with h | ⟨r, _, h | h⟩ | ⟨m, _, h | h⟩ <;>
    rw [h] <;>
    simp only [List.length_append, List.length_cons, List.length_nil] <;>
    omega

/-- Generic invariant preservation through the round loop. -/
theorem runRounds_pres (hs : HotshotModel) (cfg : Config) (s : Sched)
    (rpc_urls : List String) (P : LoopSt → Prop)
    (hstep : ∀ round rn st, P st →
      P (stepRound hs cfg s rpc_urls round rn st).1) :
    ∀ rds rn st, P st → P (runRounds hs cfg s rpc_urls rds rn st) := by
  intro rds
  induction rds with
  | nil => intro rn st h; exact h
  | cons round rest ih =>
      intro rn st h
      simp only [runRounds]
      cases hb : (stepRound hs cfg s rpc_urls round (rn + 1) st).2
      · simp only [hb, Bool.false_eq_true, if_false]
        exact ih _ _ (hstep _ _ _ h)
      · simp only [hb, if_true]
        exact hstep _ _ _ h

/-- The iteration counter is monotone through the round loop. -/
theorem runRounds_i_mono (hs : HotshotModel) (cfg : Config) (s : Sched)
    (rpc_urls : List String) :
    ∀ rds rn st, st.i ≤ (runRounds hs cfg s rpc_urls rds rn st).i := by
  intro rds
  induction rds with
  | nil => intro rn st; exact Nat.le_refl _
  | cons round rest ih =>
      intro rn st
      simp only [runRounds]
      have h1 := stepRound_i hs cfg s rpc_urls round (rn + 1) st
      cases hb : (stepRound hs cfg s rpc_urls round (rn + 1) st).2
      · simp only [hb, Bool.false_eq_true, if_false]
        exact le_trans (by omega) (ih (rn + 1) _)
      · simp only [hb, if_true]
        omega

/-- With configured ceiling `n`, a round loop entered strictly below the
ceiling leaves the counter at or below the ceiling: the in-loop check breaks
as soon as the ceiling is reached. -/
theorem runRounds_i_le (hs : HotshotModel) (cfg : Config) (s : Sched)
    (rpc_urls : List String) (n : Nat) (hn : cfg.iterations = some n) :
    ∀ rds rn st, st.i < n → (runRounds hs cfg s rpc_urls rds rn st).i ≤ n := by
  intro rds
  induction rds with
  | nil => intro rn st h; exact Nat.le_of_lt h
  | cons round rest ih =>
      intro rn st h
      simp only [runRounds]
      have h1 := stepRound_i hs cfg s rpc_urls round (rn + 1) st
      cases hb : (stepRound hs cfg s rpc_urls round (rn + 1) st).2
      · simp only [hb, Bool.false_eq_true, if_false]
        apply ih
        have h2 := stepRound_brk_false hs cfg s rpc_urls round (rn + 1) st hb
        simp only [ceilBrk, hn, decide_eq_false_iff_not, Nat.not_le] at h2
        omega
      · simp only [hb, if_true]
        omega

/-- With configured ceiling `n`, the outer loop keeps the counter at or below
`n` whenever it starts strictly below it. -/
theorem runLoop_i_le (hs : HotshotModel) (cfg : Config) (s : Sched)
    (rpc_urls : List String) (n : Nat) (hn : cfg.iterations = some n) :
    ∀ fuel st, st.i < n → (runLoop hs cfg s rpc_urls fuel st).1.i ≤ n := by
  intro fuel
  induction fuel with
  | zero => intro st h; exact Nat.le_of_lt h
  | succ m ih =>
      intro st h
      simp only [runLoop]
      cases hp : passExit cfg (runRounds hs cfg s rpc_urls cfg.rounds 0 st)
      · simp only [hp, Bool.false_eq_true, if_false]
        apply ih
        simp only [passExit, ceilBrk, hn, decide_eq_false_iff_not,
          Nat.not_le] at hp
        exact hp
      · simp only [hp, if_true]
        exact runRounds_i_le hs cfg s rpc_urls n hn _ _ st h

/-- Generic invariant preservation through the outer loop. -/
theorem runLoop_pres (hs : HotshotModel) (cfg : Config) (s : Sched)
    (rpc_urls : List String) (P : LoopSt → Prop)
    (hstep : ∀ round rn st, P st →
      P (stepRound hs cfg s rpc_urls round rn st).1) :
    ∀ fuel st, P st → P (runLoop hs cfg s rpc_urls fuel st).1 := by
  intro fuel
  induction fuel with
  | zero => intro st h; exact h
  | succ m ih =>
      intro st h
      simp only [runLoop]
      cases hp : passExit cfg (runRounds hs cfg s rpc_urls cfg.rounds 0 st)
      · simp only [hp, Bool.false_eq_true, if_false]
        exact ih _ (runRounds_pres hs cfg s rpc_urls P hstep _ _ _ h)
      · simp only [hp, if_true]
        exact runRounds_pres hs cfg s rpc_urls P hstep _ _ _ h

/-- Giving the outer loop one more pass of fuel can only move the iteration
counter forward: the counter only increases over the run. -/
theorem runLoop_fuel_mono (hs : HotshotModel) (cfg : Config) (s : Sched)
    (rpc_urls : List String) :
    ∀ fuel st, (runLoop hs cfg s rpc_urls fuel st).1.i ≤
      (runLoop hs cfg s rpc_urls (fuel + 1) st).1.i := by
  intro fuel
  induction fuel with
  | zero =>
      intro st
      simp only [runLoop]
      cases hp : passExit cfg (runRounds hs cfg s rpc_urls cfg.rounds 0 st)
      · simp only [hp, Bool.false_eq_true, if_false]
        exact runRounds_i_mono hs cfg s rpc_urls _ _ st
      · simp only [hp, if_true]
        exact runRounds_i_mono hs cfg s rpc_urls _ _ st
  | succ m ih =>
      intro st
      simp only [runLoop]
      cases hp : passExit cfg (runRounds hs cfg s rpc_urls cfg.rounds 0 st)
      · simp only [hp, Bool.false_eq_true, if_false]
        exact ih _
      · simp only [hp, if_true]
        exact Nat.le_refl _

/-- Late pushes cannot outnumber the abandoned tasks. -/
theorem lateResults_length : ∀ l : List (Nat × Except TestflowError
    RoundResults), (lateResults l).length ≤ l.length := by
  intro l
  induction l with
  | nil => exact Nat.le_refl _
  | cons p rest ih =>
      rcases p with ⟨k, out⟩
      cases out with
      | error e => simp only [lateResults, List.length_cons]; omega
      | ok r => simp only [lateResults, List.length_cons]; omega

/-- A successful in-race completion appends exactly one entry to the shared
results vector; failures and abandonments append none. -/
theorem stepRound_countOk (hs : HotshotModel) (cfg : Config) (s : Sched)
    (rpc_urls : List String) (round : Round) (rn : Nat) (st : LoopSt)
    (h : st.results.length = countOk st.trace) :
    (stepRound hs cfg s rpc_urls round rn st).1.results.length =
      countOk (stepRound hs cfg s rpc_urls round rn st).1.trace := by
  rcases stepRound_shape hs cfg s rpc_urls round rn st with
    hS | ⟨r, _, hS | hS⟩ | ⟨m, _, hS | hS⟩ <;>
    rw [hS] <;>
    simp [countOk, Event.isOk, List.filter_append, h]

/-- Every failed in-race completion is followed in the same step by the pause
race, so a `roundErr` event always has a matching pause event in the trace. -/
theorem stepRound_errPause (hs : HotshotModel) (cfg : Config) (s : Sched)
    (rpc_urls : List String) (round : Round) (rn : Nat) (st : LoopSt)
    (h : ∀ k, Event.roundErr k ∈ st.trace →
      Event.pauseDone k ∈ st.trace ∨ Event.pauseCancelled k ∈ st.trace) :
    ∀ k, Event.roundErr k ∈ (stepRound hs cfg s rpc_urls round rn st).1.trace →
      Event.pauseDone k ∈ (stepRound hs cfg s rpc_urls round rn st).1.trace ∨
      Event.pauseCancelled k ∈
        (stepRound hs cfg s rpc_urls round rn st).1.trace := by
  intro k hk
  rcases stepRound_shape hs cfg s rpc_urls round rn st with
    hS | ⟨r, hr, hS | hS⟩ | ⟨m, hm, hS | hS⟩ <;> rw [hS] at hk ⊢
  · rcases List.mem_append.1 hk with hk2 | hk2
    · rcases h k hk2 with hp | hp
      · exact Or.inl (List.mem_append_left _ hp)
      · exact Or.inr (List.mem_append_left _ hp)
    · simp at hk2
  · rcases List.mem_append.1 hk with hk2 | hk2
    · rcases h k hk2 with hp | hp
      · exact Or.inl (List.mem_append_left _ hp)
      · exact Or.inr (List.mem_append_left _ hp)
    · simp at hk2
  · rcases List.mem_append.1 hk with hk2 | hk2
    · rcases h k hk2 with hp | hp
      · exact Or.inl (List.mem_append_left _ hp)
      · exact Or.inr (List.mem_append_left _ hp)
    · simp at hk2
  · rcases List.mem_append.1 hk with hk2 | hk2
    · rcases h k hk2 with hp | hp
      · exact Or.inl (List.mem_append_left _ hp)
      · exact Or.inr (List.mem_append_left _ hp)
    · have hk3 : k = st.i + 1 := by simpa using hk2
      subst hk3
      exact Or.inr (List.mem_append_right _ (by simp))
  · rcases List.mem_append.1 hk with hk2 | hk2
    · rcases h k hk2 with hp | hp
      · exact Or.inl (List.mem_append_left _ hp)
      · exact Or.inr (List.mem_append_left _ hp)
    · have hk3 : k = st.i + 1 := by simpa using hk2
      subst hk3
      exact Or.inl (List.mem_append_right _ (by simp))

/-- One round-step simulation: two runs that differ only in the adapter model
have equal counters, abandoned-iteration lists and control traces after the
step, and break out of the round loop in the same way. -/
theorem stepRound_ctl (hs hsB : HotshotModel) (cfg : Config) (s : Sched)
    (rpc_urls : List String) (round : Round) (rn : Nat) (st stB : LoopSt)
    (h : st.ctl = stB.ctl) :
    (stepRound hs cfg s rpc_urls round rn st).1.ctl =
      (stepRound hsB cfg s rpc_urls round rn stB).1.ctl ∧
    (stepRound hs cfg s rpc_urls round rn st).2 =
      (stepRound hsB cfg s rpc_urls round rn stB).2 := by
  simp only [LoopSt.ctl, Prod.mk.injEq, ctlTrace] at h
  obtain ⟨hi, hj, hp, ht⟩ := h
  by_cases h1 : (s.cancelReady st.j && s.cancelWins st.j) = true
  · have h1B : (s.cancelReady stB.j && s.cancelWins stB.j) = true := hj ▸ h1
    constructor
    · simp [stepRound, h1, h1B, LoopSt.ctl, ctlTrace, List.filter_append,
        Event.isCtl, hi, hj, hp, ht]
    · simp [stepRound, h1, h1B]
  · have h1B : ¬ (s.cancelReady stB.j && s.cancelWins stB.j) = true :=
      hj ▸ h1
    rcases hout : process_round hs cfg.adapter round (st.i + 1) rpc_urls
        cfg.round_templates with msg | res <;>
      rcases houtB : process_round hsB cfg.adapter round (stB.i + 1) rpc_urls
        cfg.round_templates with msgB | resB <;>
      by_cases h2 : (s.cancelReady (st.j + 1) && s.cancelWins (st.j + 1))
        = true <;>
      have h2B := hj ▸ h2 <;>
      constructor <;>
      (simp [stepRound, h1, h1B, h2, h2B, hout, houtB, LoopSt.ctl, ctlTrace,
        List.filter_append, Event.isCtl]
       try simp [hi, hj, hp, ht])


theorem runRounds_ctl (hs hsB : HotshotModel) (cfg : Config) (s : Sched)
    (rpc_urls : List String) :
    ∀ rds rn st stB, st.ctl = stB.ctl →
      (runRounds hs cfg s rpc_urls rds rn st).ctl =
        (runRounds hsB cfg s rpc_urls rds rn stB).ctl := by
  intro rds
  induction rds with
  | nil => intro rn st stB h; exact h
  | cons round rest ih =>
      intro rn st stB h
      obtain ⟨hc, hb⟩ := stepRound_ctl hs hsB cfg s rpc_urls round (rn + 1)
        st stB h
      simp only [runRounds]
      cases hbv : (stepRound hs cfg s rpc_urls round (rn + 1) st).2
      · have hbvB : (stepRound hsB cfg s rpc_urls round (rn + 1) stB).2
            = false := by rw [← hb]; exact hbv
        simp only [hbv, hbvB, Bool.false_eq_true, if_false]
        exact ih _ _ _ hc
      · have hbvB : (stepRound hsB cfg s rpc_urls round (rn + 1) stB).2
            = true := by rw [← hb]; exact hbv
        simp only [hbv, hbvB, if_true]
        exact hc

theorem runLoop_ctl (hs hsB : HotshotModel) (cfg : Config) (s : Sched)
    (rpc_urls : List String) :
    ∀ fuel st stB, st.ctl = stB.ctl →
      (runLoop hs cfg s rpc_urls fuel st).1.ctl =
        (runLoop hsB cfg s rpc_urls fuel stB).1.ctl ∧
      (runLoop hs cfg s rpc_urls fuel st).2 =
        (runLoop hsB cfg s rpc_urls fuel stB).2 := by
  intro fuel
  induction fuel with
  | zero => intro st stB h; exact ⟨h, rfl⟩
  | succ m ih =>
      intro st stB h
      have hc := runRounds_ctl hs hsB cfg s rpc_urls cfg.rounds 0 st stB h
      have hi : (runRounds hs cfg s rpc_urls cfg.rounds 0 st).i =
          (runRounds hsB cfg s rpc_urls cfg.rounds 0 stB).i :=
        congrArg Prod.fst hc
      have hpe : passExit cfg (runRounds hs cfg s rpc_urls cfg.rounds 0 st) =
          passExit cfg (runRounds hsB cfg s rpc_urls cfg.rounds 0 stB) := by
        simp only [passExit, hi]
      simp only [runLoop]
      cases hp : passExit cfg (runRounds hs cfg s rpc_urls cfg.rounds 0 st)
      · have hpB : passExit cfg (runRounds hsB cfg s rpc_urls cfg.rounds 0
            stB) = false := by rw [← hpe]; exact hp
        simp only [hp, hpB, Bool.false_eq_true, if_false]
        exact ih _ _ hc
      · have hpB : passExit cfg (runRounds hsB cfg s rpc_urls cfg.rounds 0
            stB) = true := by rw [← hpe]; exact hp
        simp only [hp, hpB, if_true]
        exact ⟨hc, trivial⟩

theorem all_fst_eq (f : Nat → Bool) :
    ∀ l1 l2 : List (Nat × Except TestflowError RoundResults),
      l1.map Prod.fst = l2.map Prod.fst →
      (l1.all fun p => f p.1) = (l2.all fun p => f p.1) := by
  intro l1
  induction l1 with
  | nil =>
      intro l2 h
      cases l2 with
      | nil => rfl
      | cons q rest2 => simp at h
  | cons p rest ih =>
      intro l2 h
      cases l2 with
      | nil => simp at h
      | cons q rest2 =>
          simp only [List.map_cons, List.cons.injEq] at h
          simp only [List.all_cons, h.1, ih rest2 h.2]

theorem run_ctl (hs hsB : HotshotModel) (s : Sched) (fuel : Nat)
    (cfg : Config) (rpc_urls : List String) :
    (run hs s fuel cfg rpc_urls).1.ctl =
      (run hsB s fuel cfg rpc_urls).1.ctl ∧
    ((run hs s fuel cfg rpc_urls).2 = none ↔
      (run hsB s fuel cfg rpc_urls).2 = none) ∧
    ((run hs s fuel cfg rpc_urls).2 = some RunOutcome.panicked ↔
      (run hsB s fuel cfg rpc_urls).2 = some RunOutcome.panicked) := by
  obtain ⟨hc, hf⟩ := runLoop_ctl hs hsB cfg s rpc_urls fuel initSt initSt rfl
  have e1 : run hs s fuel cfg rpc_urls =
      ((runLoop hs cfg s rpc_urls fuel initSt).1,
        if (runLoop hs cfg s rpc_urls fuel initSt).2 = true
        then some (drain s (runLoop hs cfg s rpc_urls fuel initSt).1)
        else none) := rfl
  have e2 : run hsB s fuel cfg rpc_urls =
      ((runLoop hsB cfg s rpc_urls fuel initSt).1,
        if (runLoop hsB cfg s rpc_urls fuel initSt).2 = true
        then some (drain s (runLoop hsB cfg s rpc_urls fuel initSt).1)
        else none) := rfl
  have hpend : (runLoop hs cfg s rpc_urls fuel initSt).1.pending.map Prod.fst
      = (runLoop hsB cfg s rpc_urls fuel initSt).1.pending.map Prod.fst :=
    congrArg (fun q => q.2.2.1) hc
  have hdr : (drain s (runLoop hs cfg s rpc_urls fuel initSt).1 =
      RunOutcome.panicked) ↔
      (drain s (runLoop hsB cfg s rpc_urls fuel initSt).1 =
      RunOutcome.panicked) := by
    unfold drain
    rw [all_fst_eq s.lands _ _ hpend]
    cases (runLoop hsB cfg s rpc_urls fuel initSt).1.pending.all
        (fun p => s.lands p.1)
    · simp
    · simp
  rw [e1, e2]
  refine ⟨hc, ?_, ?_⟩
  · rw [hf]
    cases (runLoop hsB cfg s rpc_urls fuel initSt).2
    · simp
    · simp
  · rw [hf]
    cases (runLoop hsB cfg s rpc_urls fuel initSt).2
    · simp
    · simpa using hdr


/-! Claim theorems. -/

/-- C1: the claim says that once cancellation is observed by the scheduler no
further round is dispatched.  The code violates it: the cancellation `break`
only leaves the inner `for` loop, and the outer `loop` re-enters a new pass
which spawns `process_round` again.  Under a realizable schedule in which
cancellation is requested before the run and wins every race, the trace of
two passes shows a second dispatch after the first race was resolved toward
cancellation. -/
theorem run_dispatches_after_cancellation :
    Sched.realizable schedCancelStart ∧
    (run hsOk schedCancelStart 2 baseCfg []).1.trace =
      [Event.dispatch 1 1, Event.abandoned 1,
       Event.dispatch 2 1, Event.abandoned 2] := by
  refine ⟨?_, rfl⟩
  intro j hj
  simp [schedCancelStart, Sched.cancelReady]

/-- C3: the claim says a run cancelled before any round starts returns empty
without invoking any adapter call.  The code violates it: the round task is
spawned before the dispatch race is polled, so `process_round` is invoked
(the `dispatch` event below), and with no configured ceiling the outer loop
never exits, so the run does not terminate at all. -/
theorem precancelled_run_spawns_and_diverges :
    Sched.realizable schedCancelStart ∧
    (run hsOk schedCancelStart 1 baseCfg []).1.trace =
      [Event.dispatch 1 1, Event.abandoned 1] ∧
    NeverTerminates hsOk schedCancelStart baseCfg [] := by
  refine ⟨?_, rfl, run_none_diverges hsOk baseCfg schedCancelStart [] rfl⟩
  intro j hj
  simp [schedCancelStart, Sched.cancelReady]

/-- C4: the claim says a result produced by a round abandoned at a
cancellation-won race is discarded.  The code violates it: the spawned task's
push into the shared vector is unguarded, so when the abandoned task finishes
before the final drain its result is returned — here round 1 is abandoned
(cancellation wins the dispatch race) yet the returned sequence contains its
result. -/
theorem abandoned_round_result_returned :
    Sched.realizable schedCancelStart ∧
    (run hsOk schedCancelStart 1 cfgOneIter []).1.trace =
      [Event.dispatch 1 1, Event.abandoned 1] ∧
    (run hsOk schedCancelStart 1 cfgOneIter []).2 =
      some (RunOutcome.ok [{ tag := 1 }]) := by
  refine ⟨?_, rfl, rfl⟩
  intro j hj
  simp [schedCancelStart, Sched.cancelReady]

/-- C5: the claim says the final drain always succeeds and `run` returns
`Ok`, even when cancellation resolved a race with the round task still in
flight.  The code violates it: nothing joins the abandoned task, so when it
is still running at the drain it still holds a clone of the `Arc` and
`Arc::try_unwrap(results).unwrap()` panics. -/
theorem drain_panics_on_inflight_task :
    Sched.realizable schedCancelStartStuck ∧
    (run hsOk schedCancelStartStuck 1 cfgOneIter []).1.trace =
      [Event.dispatch 1 1, Event.abandoned 1] ∧
    (run hsOk schedCancelStartStuck 1 cfgOneIter []).2 =
      some RunOutcome.panicked := by
  refine ⟨?_, rfl, rfl⟩
  intro j hj
  simp [schedCancelStartStuck, Sched.cancelReady]

/-- C2 counterexample: with a configured ceiling of 0 the claim fails — the
ceiling is only checked after a round has already run, so one round is
dispatched, the counter reaches 1 > 0 and the returned sequence has length
1 > 0. -/
theorem ceiling_zero_counterexample :
    (run hsOk schedNoCancel 1 cfgZeroIter []).1.i = 1 ∧
    (run hsOk schedNoCancel 1 cfgZeroIter []).2 =
      some (RunOutcome.ok [{ tag := 1 }]) :=
  ⟨rfl, rfl⟩

/-- C2 (amended): for every configured ceiling `n` with `n ≥ 1` and every
schedule, the iteration counter stays at or below `n`, the counter only
increases as the run proceeds, and any returned result sequence has length at
most `n`.  (For `n = 0` the claim fails, see the counterexample: the ceiling
is only checked after a round has run.) -/
theorem iteration_ceiling_bound (hs : HotshotModel) (s : Sched) (cfg : Config)
    (rpc_urls : List String) (n fuel : Nat) (hn : cfg.iterations = some n)
    (h1 : 1 ≤ n) :
    (run hs s fuel cfg rpc_urls).1.i ≤ n ∧
    (run hs s fuel cfg rpc_urls).1.i ≤ (run hs s (fuel + 1) cfg rpc_urls).1.i ∧
    (∀ res, (run hs s fuel cfg rpc_urls).2 = some (RunOutcome.ok res) →
      res.length ≤ n) := by
  have hinit : (initSt).i < n := by
    simp only [initSt]
    omega
  refine ⟨?_, ?_, ?_⟩
  · have h := runLoop_i_le hs cfg s rpc_urls n hn fuel initSt hinit
    simpa [run] using h
  · have h := runLoop_fuel_mono hs cfg s rpc_urls fuel initSt
    simpa [run] using h
  · intro res hres
    have hrun : (run hs s fuel cfg rpc_urls).2 =
        (if (runLoop hs cfg s rpc_urls fuel initSt).2 = true
          then some (drain s (runLoop hs cfg s rpc_urls fuel initSt).1)
          else none) := rfl
    rw [hrun] at hres
    cases hb : (runLoop hs cfg s rpc_urls fuel initSt).2 with
    | false => rw [hb] at hres; simp at hres
    | true =>
        rw [hb] at hres
        simp only [if_true] at hres
        have hdr : drain s (runLoop hs cfg s rpc_urls fuel initSt).1 =
            RunOutcome.ok res := by
          injection hres
        unfold drain at hdr
        cases hall : (runLoop hs cfg s rpc_urls fuel
            initSt).1.pending.all (fun p => s.lands p.1) with
        | false => rw [hall] at hdr; simp at hdr
        | true =>
            rw [hall] at hdr
            simp only [if_true] at hdr
            have hres2 : (runLoop hs cfg s rpc_urls fuel initSt).1.results ++
                lateResults (runLoop hs cfg s rpc_urls fuel initSt).1.pending
                = res := by
              injection hdr
            have hsum : (runLoop hs cfg s rpc_urls fuel
                initSt).1.results.length + (runLoop hs cfg s rpc_urls fuel
                initSt).1.pending.length ≤
                (runLoop hs cfg s rpc_urls fuel initSt).1.i := by
              refine runLoop_pres hs cfg s rpc_urls
                (fun st => st.results.length + st.pending.length ≤ st.i)
                ?_ fuel initSt ?_
              · intro round rn st h
                have hi := stepRound_i hs cfg s rpc_urls round rn st
                have hsm := stepRound_sum hs cfg s rpc_urls round rn st
                omega
              · simp [initSt]
            have hi := runLoop_i_le hs cfg s rpc_urls n hn fuel initSt hinit
            have hl := lateResults_length
              (runLoop hs cfg s rpc_urls fuel initSt).1.pending
            rw [← hres2]
            simp only [List.length_append]
            omega

/-- C2 witness: the ceiling-4 two-round scenario instantiates the bound — the
final counter is at most 4 and the returned 4-element sequence respects the
bound. -/
theorem iteration_ceiling_bound_witness :
    (run hsOk schedNoCancel 2 cfgAB4 []).1.i ≤ 4 ∧
    ([{ tag := 1 }, { tag := 2 }, { tag := 3 }, { tag := 4 }] :
      List RoundResults).length ≤ 4 :=
  ⟨(iteration_ceiling_bound hsOk schedNoCancel cfgAB4 [] 4 2 rfl
      (by omega)).1,
   (iteration_ceiling_bound hsOk schedNoCancel cfgAB4 [] 4 2 rfl
      (by omega)).2.2 _ rfl⟩

/-- With an empty round sequence the loop state never changes at all. -/
theorem runLoop_empty_fst (hs : HotshotModel) (cfg : Config) (s : Sched)
    (rpc_urls : List String) (h : cfg.rounds = []) :
    ∀ fuel st, (runLoop hs cfg s rpc_urls fuel st).1 = st := by
  intro fuel
  induction fuel with
  | zero => intro st; rfl
  | succ m ih =>
      intro st
      have h1 : runRounds hs cfg s rpc_urls cfg.rounds 0 st = st := by
        rw [h]; rfl
      simp only [runLoop, h1]
      cases hp : passExit cfg st
      · simp only [hp, Bool.false_eq_true, if_false]
        exact ih st
      · simp only [hp, if_true]

/-- C9 (amended): with an empty round sequence each pass completes
immediately and the iteration counter never advances; the pass-boundary
ceiling check therefore makes the run terminate only when the configured
ceiling is 0 (already reached) — with a ceiling of at least 1, or with no
ceiling, the run loops forever instead of terminating. -/
theorem empty_rounds_spin (hs : HotshotModel) (s : Sched) (cfg : Config)
    (rpc_urls : List String) (fuel : Nat) (h : cfg.rounds = []) :
    (run hs s fuel cfg rpc_urls).1.i = 0 ∧
    (cfg.iterations = some 0 → 1 ≤ fuel →
      run hs s fuel cfg rpc_urls = (initSt, some (RunOutcome.ok []))) ∧
    (∀ n, cfg.iterations = some (n + 1) →
      (run hs s fuel cfg rpc_urls).2 = none) ∧
    (cfg.iterations = none → (run hs s fuel cfg rpc_urls).2 = none) := by
  refine ⟨?_, ?_, ?_, ?_⟩
  · have h1 := runLoop_empty_fst hs cfg s rpc_urls h fuel initSt
    have h2 : (run hs s fuel cfg rpc_urls).1 =
        (runLoop hs cfg s rpc_urls fuel initSt).1 := rfl
    rw [h2, h1]
    rfl
  · intro h0 hf
    cases fuel with
    | zero => omega
    | succ m =>
        have h1 : runRounds hs cfg s rpc_urls cfg.rounds 0 initSt = initSt := by
          rw [h]; rfl
        have hp : passExit cfg initSt = true := by
          simp [passExit, ceilBrk, h0, initSt]
        have h2 : runLoop hs cfg s rpc_urls (m + 1) initSt =
            (initSt, true) := by
          simp only [runLoop, h1, hp, if_true]
        have h3 : run hs s (m + 1) cfg rpc_urls =
            ((runLoop hs cfg s rpc_urls (m + 1) initSt).1,
              if (runLoop hs cfg s rpc_urls (m + 1) initSt).2 = true
              then some (drain s (runLoop hs cfg s rpc_urls (m + 1)
                initSt).1) else none) := rfl
        rw [h3, h2]
        simp [drain, initSt, lateResults]
  · intro n hn
    have hp : passExit cfg initSt = false := by
      simp [passExit, ceilBrk, hn, initSt]
    have h1 := runLoop_empty_rounds hs cfg s rpc_urls h initSt hp fuel
    have h2 : (run hs s fuel cfg rpc_urls).2 =
        (if (runLoop hs cfg s rpc_urls fuel initSt).2 = true
          then some (drain s (runLoop hs cfg s rpc_urls fuel initSt).1)
          else none) := rfl
    rw [h2, h1]
    simp
  · intro hn
    exact run_none_diverges hs cfg s rpc_urls hn fuel

/-- C9 witness: with one configured ceiling of 1 and an empty round sequence
the counter stays 0 and the run has not terminated after two passes; with a
ceiling of 0 it terminates at once with an empty result sequence. -/
theorem empty_rounds_spin_witness :
    (run hsOk schedNoCancel 2 cfgEmptyOne []).1.i = 0 ∧
    (run hsOk schedNoCancel 2 cfgEmptyOne []).2 = none ∧
    run hsOk schedNoCancel 1 cfgEmptyZero [] =
      (initSt, some (RunOutcome.ok [])) :=
  ⟨(empty_rounds_spin hsOk schedNoCancel cfgEmptyOne [] 2 rfl).1,
   (empty_rounds_spin hsOk schedNoCancel cfgEmptyOne [] 2 rfl).2.2.1 0 rfl,
   (empty_rounds_spin hsOk schedNoCancel cfgEmptyZero [] 1 rfl).2.1 rfl
     (by omega)⟩

/-- C8: the spec's concrete scenario `rounds = [A, B]`, `interval = 0`,
`iterations = 4`: with no adapter failures and no cancellation the loop
dispatches A, B, A, B with iteration numbers 1,2,3,4 and round numbers
1,2,1,2, and returns exactly the 4 results in completion order. -/
theorem scenario_two_rounds_four_iterations :
    run hsOk schedNoCancel 2 cfgAB4 [] =
      ({ i := 4, j := 8,
         results := [{ tag := 1 }, { tag := 2 }, { tag := 3 }, { tag := 4 }],
         pending := [],
         trace := [Event.dispatch 1 1, Event.roundOk 1, Event.pauseDone 1,
                   Event.dispatch 2 2, Event.roundOk 2, Event.pauseDone 2,
                   Event.dispatch 3 1, Event.roundOk 3, Event.pauseDone 3,
                   Event.dispatch 4 2, Event.roundOk 4, Event.pauseDone 4] },
       some (RunOutcome.ok
         [{ tag := 1 }, { tag := 2 }, { tag := 3 }, { tag := 4 }])) :=
  rfl

/-- C9 counterexample: the claim says a run over an empty round sequence with
a configured ceiling terminates.  With ceiling 1 the counter stays 0, the
pass-boundary check `0 >= 1` never fires, and the run spins forever. -/
theorem empty_rounds_ceiling_one_diverges :
    NeverTerminates hsOk schedNoCancel cfgEmptyOne [] := by
  intro fuel
  have h := runLoop_empty_rounds hsOk cfgEmptyOne schedNoCancel [] rfl initSt
    (by decide) fuel
  simp only [run, h, Bool.false_eq_true, if_false]

/-- C6 counterexample: the claim says an `UnsupportedAdapter` raised at the
first round dispatch aborts the run before any rounds execute.  In `run` the
error from `process_round` is handled like any round failure — logged, loop
continues: with an unregistered adapter both configured rounds are dispatched
and the run terminates normally with `Ok` and an empty result sequence rather
than aborting with the error. -/
theorem unsupported_adapter_run_continues :
    (run hsOk schedNoCancel 1 cfgUnreg []).1.trace =
      [Event.dispatch 1 1, Event.roundErr 1, Event.pauseDone 1,
       Event.dispatch 2 2, Event.roundErr 2, Event.pauseDone 2] ∧
    (run hsOk schedNoCancel 1 cfgUnreg []).2 = some (RunOutcome.ok []) :=
  ⟨rfl, rfl⟩

/-- C6 (amended): both entry points do fail fast with `UnsupportedAdapter`
for an unregistered adapter selector — `load_endpoints` and `process_round`
return the error immediately and never silently no-op; only the further
claim that the error aborts `run` at the first round dispatch is false (see
the counterexample). -/
theorem unsupported_adapter_fails_fast (hs : HotshotModel) (cfg : Config)
    (name : String) (round : Round) (iteration : Nat) (rpc_urls : List String)
    (tpls : List (String × RoundTemplate)) :
    load_endpoints hs { cfg with adapter := Adapter.unregistered name } =
      Except.error (TestflowError.unsupportedAdapter name) ∧
    process_round hs (Adapter.unregistered name) round iteration rpc_urls
        tpls =
      Except.error (TestflowError.unsupportedAdapter name) :=
  ⟨rfl, rfl⟩

/-- C10: `wait_exit_signals` fails with a `TerminationError` exactly when
installing one of the terminate/interrupt/quit handlers fails, and otherwise
returns `Ok(())` once the first of the three signals arrives; which signal
arrives first does not affect the result. -/
theorem wait_exit_signals_spec (setup : SigKind → Option String)
    (first first' : SigKind) :
    wait_exit_signals setup first = wait_exit_signals setup first' ∧
    ((wait_exit_signals setup first = Except.ok ()) ↔
      (setup SigKind.terminate = none ∧ setup SigKind.interrupt = none ∧
       setup SigKind.quit = none)) ∧
    ((∃ e, wait_exit_signals setup first =
        Except.error (TestrpcError.terminationError e)) ↔
      ¬ (setup SigKind.terminate = none ∧ setup SigKind.interrupt = none ∧
         setup SigKind.quit = none)) := by
  refine ⟨rfl, ?_, ?_⟩ <;>
    rcases ht : setup SigKind.terminate with _ | et <;>
    rcases hi : setup SigKind.interrupt with _ | ei <;>
    rcases hq : setup SigKind.quit with _ | eq' <;>
    simp [wait_exit_signals, ht, hi, hq]


/-- Results-vector bookkeeping over a full run: the number of entries pushed
in-race equals the number of successful in-race completions in the trace. -/
theorem run_results_countOk (hs : HotshotModel) (s : Sched) (fuel : Nat)
    (cfg : Config) (rpc_urls : List String) :
    (run hs s fuel cfg rpc_urls).1.results.length =
      countOk (run hs s fuel cfg rpc_urls).1.trace := by
  have h := runLoop_pres hs cfg s rpc_urls
    (fun st => st.results.length = countOk st.trace)
    (fun round rn st hst => stepRound_countOk hs cfg s rpc_urls round rn st
      hst) fuel initSt (by simp [initSt, countOk])
  exact h

/-- Every `roundErr` in a run trace is accompanied by a pause event for the
same iteration: a failed round still proceeds to the inter-round pause. -/
theorem run_errPause (hs : HotshotModel) (s : Sched) (fuel : Nat)
    (cfg : Config) (rpc_urls : List String) (k : Nat)
    (h : Event.roundErr k ∈ (run hs s fuel cfg rpc_urls).1.trace) :
    Event.pauseDone k ∈ (run hs s fuel cfg rpc_urls).1.trace ∨
    Event.pauseCancelled k ∈ (run hs s fuel cfg rpc_urls).1.trace := by
  have hp := runLoop_pres hs cfg s rpc_urls
    (fun st => ∀ m, Event.roundErr m ∈ st.trace →
      Event.pauseDone m ∈ st.trace ∨ Event.pauseCancelled m ∈ st.trace)
    (fun round rn st hst => stepRound_errPause hs cfg s rpc_urls round rn st
      hst) fuel initSt (by simp [initSt])
  exact hp k h

/-- C7: a round whose `process_round` completes with an error is non-fatal —
the run proceeds to the inter-round pause for that iteration (a pause event
for `k` is in the trace), the failed round contributes no entry (the results
vector counts exactly the successful completions), and errors never affect
control flow: against any second adapter model the run has the same
counters, the same dispatch/abandon/pause control trace, the same
termination status and the same panic status. -/
theorem round_error_nonfatal (hs hsB : HotshotModel) (s : Sched)
    (cfg : Config) (rpc_urls : List String) (fuel k : Nat)
    (h : Event.roundErr k ∈ (run hs s fuel cfg rpc_urls).1.trace) :
    (Event.pauseDone k ∈ (run hs s fuel cfg rpc_urls).1.trace ∨
      Event.pauseCancelled k ∈ (run hs s fuel cfg rpc_urls).1.trace) ∧
    (run hs s fuel cfg rpc_urls).1.results.length =
      countOk (run hs s fuel cfg rpc_urls).1.trace ∧
    (run hs s fuel cfg rpc_urls).1.ctl =
      (run hsB s fuel cfg rpc_urls).1.ctl ∧
    ((run hs s fuel cfg rpc_urls).2 = none ↔
      (run hsB s fuel cfg rpc_urls).2 = none) ∧
    ((run hs s fuel cfg rpc_urls).2 = some RunOutcome.panicked ↔
      (run hsB s fuel cfg rpc_urls).2 = some RunOutcome.panicked) :=
  ⟨run_errPause hs s fuel cfg rpc_urls k h,
   run_results_countOk hs s fuel cfg rpc_urls,
   (run_ctl hs hsB s fuel cfg rpc_urls).1,
   (run_ctl hs hsB s fuel cfg rpc_urls).2.1,
   (run_ctl hs hsB s fuel cfg rpc_urls).2.2⟩

/-- C7 witness: in the two-round ceiling-2 scenario where iteration 1 fails,
the failed round is followed by its pause, the single result entry matches
the single successful completion, and the run is control-equivalent to the
fully successful run. -/
theorem round_error_nonfatal_witness :
    (Event.pauseDone 1 ∈ (run hsFail1 schedNoCancel 1 cfgAB2 []).1.trace ∨
      Event.pauseCancelled 1 ∈
        (run hsFail1 schedNoCancel 1 cfgAB2 []).1.trace) ∧
    (run hsFail1 schedNoCancel 1 cfgAB2 []).1.results.length =
      countOk (run hsFail1 schedNoCancel 1 cfgAB2 []).1.trace ∧
    (run hsFail1 schedNoCancel 1 cfgAB2 []).1.ctl =
      (run hsOk schedNoCancel 1 cfgAB2 []).1.ctl ∧
    ((run hsFail1 schedNoCancel 1 cfgAB2 []).2 = none ↔
      (run hsOk schedNoCancel 1 cfgAB2 []).2 = none) ∧
    ((run hsFail1 schedNoCancel 1 cfgAB2 []).2 = some RunOutcome.panicked ↔
      (run hsOk schedNoCancel 1 cfgAB2 []).2 = some RunOutcome.panicked) :=
  round_error_nonfatal hsFail1 hsOk schedNoCancel cfgAB2 [] 1 1 (by decide)

end Testrpc
